import Mathlib

/-!
Shallow embedding of `rpi-dht22-mqtt` (crates `rpi-gpio` and `light`) and
verification of its natural-language specification.

Machine integers are modelled as `Nat` with explicit `% 256` where the Rust
code uses wrapping `u8` arithmetic; `f32` quantities produced by the code are
modelled as `ℚ`.  Every `f32` appearing here is of the form `n / 10.0` with
`n : u16`; such values are exactly determined by `n` (IEEE division of an
exactly representable integer by 10 is correctly rounded, and distinct
rationals `n / 10` with `n < 2 ^ 16` round to distinct `f32`s), so equality
and sign comparisons of these `f32`s coincide with the corresponding facts
about the rationals, with the single exception of the IEEE negative zero,
which compares equal to `0.0` in Rust just as `-0 = 0` in `ℚ`.
-/

deriving instance DecidableEq for Except

namespace Dht22

/-- `const DHT_PULSES: usize = 41;` from `src/crates/rpi-gpio/src/dht22.rs`. -/
def DHT_PULSES : Nat := 41

/-- `const MAX_COUNT: usize = 32000;` from `src/crates/rpi-gpio/src/dht22.rs`. -/
def MAX_COUNT : Nat := 32000

/-- `pub struct Reading { pub temperature: f32, pub humidity: f32 }`,
with the two `f32` fields modelled as `ℚ`. -/
structure Reading where
  temperature : ℚ
  humidity : ℚ
deriving DecidableEq, Repr

/-- `pub enum ReadingError { Timeout, Checksum, Gpio(..) }` from `lib.rs`.
The payload of `Gpio` is irrelevant to the claims and dropped. -/
inductive ReadingError where
  | Timeout : ReadingError
  | Checksum : ReadingError
  | Gpio : ReadingError
deriving DecidableEq, Repr

/-- The index sequence of the first `decode` loop:
`let mut i = 2; while i < DHT_PULSES * 2 { ...; i += 2 }`,
i.e. `[2, 4, ..., 80]` (40 indices, step 2). -/
def thresholdIdx : List Nat := List.range' 2 (DHT_PULSES - 1) 2

/-- The index sequence of the second `decode` loop:
`let mut i = 3; while i < DHT_PULSES * 2 { ...; i += 2 }`,
i.e. `[3, 5, ..., 81]` (40 indices, step 2). -/
def dataIdx : List Nat := List.range' 3 (DHT_PULSES - 1) 2

/-- The first loop of `decode` followed by `threshold /= DHT_PULSES - 1;`:
sum `arr[i]` for `i = 2, 4, ..., 80` and divide by 40 (integer division). -/
def threshold (arr : List Nat) : Nat :=
  (thresholdIdx.foldl (fun t i => t + arr.getD i 0) 0) / (DHT_PULSES - 1)

/-- One iteration of the second loop of `decode`, acting on the
`data: [u8; 5]` accumulator:
`let index = (i - 3) / 16; data[index] <<= 1; if arr[i] >= threshold { data[index] |= 1 }`.
The `u8` left shift wraps, hence `% 256`. -/
def dataStep (arr : List Nat) (t : Nat) (data : List Nat) (i : Nat) : List Nat :=
  let index := (i - 3) / 16
  let b := data.getD index 0
  let b := b * 2 % 256
  let b := if arr.getD i 0 ≥ t then b ||| 1 else b
  data.set index b

/-- The second loop of `decode`: starting from `data = [0u8; 5]`, run
`dataStep` for `i = 3, 5, ..., 81`. -/
def dataBytes (arr : List Nat) (t : Nat) : List Nat :=
  dataIdx.foldl (dataStep arr t) (List.replicate 5 0)

/-- `dataStep` with the bit contribution abstracted into a function `f` of
the pulse index. -/
def dataStepA (f : Nat → Nat) (data : List Nat) (i : Nat) : List Nat :=
  data.set ((i - 3) / 16) (data.getD ((i - 3) / 16) 0 * 2 % 256 + f i)


/-- `data[0].wrapping_add(data[1]).wrapping_add(data[2]).wrapping_add(data[3])`
on `u8`: each `wrapping_add` reduces `% 256`. -/
def wrappingSum (data : List Nat) : Nat :=
  (((data.getD 0 0 + data.getD 1 0) % 256 + data.getD 2 0) % 256 +
    data.getD 3 0) % 256

/-- `fn decode(arr: &[usize; DHT_PULSES * 2]) -> Result<Reading, ReadingError>`
from `src/crates/rpi-gpio/src/dht22.rs`, on a `List Nat` of the 82 pulse
counts.  `f32` results are modelled as `ℚ` (see the file comment). -/
def decode (arr : List Nat) : Except ReadingError Reading :=
  let t := threshold arr
  let data := dataBytes arr t
  if data.getD 4 0 ≠ wrappingSum data then
    .error .Checksum
  else
    let h_dec := data.getD 0 0 * 256 + data.getD 1 0
    let h : ℚ := (h_dec : ℚ) / 10
    let t_dec := (data.getD 2 0 &&& 0x7f) * 256 + data.getD 3 0
    let tv : ℚ := (t_dec : ℚ) / 10
    let tv := if data.getD 2 0 &&& 0x80 ≠ 0 then -tv else tv
    .ok { temperature := tv, humidity := h }

/-- `decode` with every array access made explicit, for the safety claim:
reads of `arr` and of the `data` accumulator use checked indexing (`none`
models an out-of-bounds panic), and the write `data[index] = b` requires
`index < data.length`.  Apart from the checks it follows `decode` line by
line. -/
def decodeChecked (arr : List Nat) : Option (Except ReadingError Reading) :=
  match thresholdIdx.foldlM (fun t i => (arr[i]?).map fun a => t + a) 0 with
  | none => none
  | some tsum =>
    let t := tsum / (DHT_PULSES - 1)
    match dataIdx.foldlM (fun (data : List Nat) i =>
        match data[(i - 3) / 16]?, arr[i]? with
        | some b, some a =>
          let b := b * 2 % 256
          let b := if a ≥ t then b ||| 1 else b
          if (i - 3) / 16 < data.length then
            some (data.set ((i - 3) / 16) b)
          else none
        | _, _ => none) (List.replicate 5 0) with
    | none => none
    | some data =>
      match data[0]?, data[1]?, data[2]?, data[3]?, data[4]? with
      | some d0, some d1, some d2, some d3, some d4 =>
        if d4 ≠ (((d0 + d1) % 256 + d2) % 256 + d3) % 256 then
          some (.error .Checksum)
        else
          some (.ok (Reading.mk
            (if d2 &&& 0x80 ≠ 0 then
              -((((d2 &&& 0x7f) * 256 + d3 : ℕ) : ℚ) / 10)
            else (((d2 &&& 0x7f) * 256 + d3 : ℕ) : ℚ) / 10)
            (((d0 * 256 + d1 : ℕ) : ℚ) / 10)))
      | _, _, _, _, _ => none


/-- The pulse train of test `sample1` in `dht22.rs`. -/
def sample1 : List Nat :=
  [458, 328,
   320, 101, 249, 153, 314, 153, 320, 154, 317, 153, 316, 153, 321, 431, 320,
   147, 397, 154, 315, 435, 316, 154, 320, 431, 320, 430, 319, 431, 320, 431,
   320, 426,
   401, 148, 319, 154, 316, 154, 320, 150, 320, 154, 315, 154, 320, 149, 320,
   148, 397, 154, 319, 430, 321, 430, 321, 431, 320, 429, 318, 432, 320, 150,
   320, 147,
   379, 434, 316, 434, 317, 153, 320, 431, 317, 435, 316, 435, 317, 153, 320,
   425]

/-- The pulse train of test `from_spec_positive_temp` in `dht22.rs`
(data bytes `[2, 140, 1, 95, 238]`, humidity 65.2, temperature 35.1). -/
def specPositiveTemp : List Nat :=
  [80, 80,
   50, 26, 50, 26, 50, 26, 50, 26, 50, 26, 50, 26, 50, 70, 50, 26, 50, 70, 50,
   26, 50, 26, 50, 26, 50, 70, 50, 70, 50, 26, 50, 26,
   50, 26, 50, 26, 50, 26, 50, 26, 50, 26, 50, 26, 50, 26, 50, 70, 50, 26, 50,
   70, 50, 26, 50, 70, 50, 70, 50, 70, 50, 70, 50, 70,
   50, 70, 50, 70, 50, 70, 50, 26, 50, 70, 50, 70, 50, 70, 50, 26]

/-- The pulse train of test `checksum` in `dht22.rs`: a corrupted variant of
the previous train whose fifth byte does not match the wrapping sum. -/
def checksumTrain : List Nat :=
  [80, 80,
   50, 26, 50, 26, 50, 26, 50, 26, 50, 70, 50, 26, 50, 70, 50, 26, 50, 70, 50,
   26, 50, 26, 50, 26, 50, 70, 50, 70, 50, 26, 50, 26,
   50, 70, 50, 26, 50, 26, 50, 26, 50, 26, 50, 26, 50, 26, 50, 26, 50, 26, 50,
   70, 50, 70, 50, 26, 50, 26, 50, 70, 50, 26, 50, 70,
   50, 26, 50, 70, 50, 70, 50, 70, 50, 26, 50, 26, 50, 70, 50, 70]

/-- A pulse train whose 40 data bits spell the bytes `[1, 148, 1, 95, 245]`
(a one bit is a `(50, 70)` pair, a zero bit a `(50, 26)` pair, so the
threshold is 50).  The checksum is internally consistent:
`(1 + 148 + 1 + 95) % 256 = 245`. -/
def bytes1_148Train : List Nat :=
  [80, 80,
   50, 26, 50, 26, 50, 26, 50, 26, 50, 26, 50, 26, 50, 26, 50, 70,
   50, 70, 50, 26, 50, 26, 50, 70, 50, 26, 50, 70, 50, 26, 50, 26,
   50, 26, 50, 26, 50, 26, 50, 26, 50, 26, 50, 26, 50, 26, 50, 70,
   50, 26, 50, 70, 50, 26, 50, 70, 50, 70, 50, 70, 50, 70, 50, 70,
   50, 70, 50, 70, 50, 70, 50, 70, 50, 26, 50, 70, 50, 26, 50, 70]

/-- A pulse train whose 40 data bits spell the bytes `[0, 0, 128, 0, 128]`:
valid checksum, sign bit of `temp_hi` set, but masked raw temperature 0. -/
def negZeroTrain : List Nat :=
  [80, 80,
   50, 26, 50, 26, 50, 26, 50, 26, 50, 26, 50, 26, 50, 26, 50, 26,
   50, 26, 50, 26, 50, 26, 50, 26, 50, 26, 50, 26, 50, 26, 50, 26,
   50, 70, 50, 26, 50, 26, 50, 26, 50, 26, 50, 26, 50, 26, 50, 26,
   50, 26, 50, 26, 50, 26, 50, 26, 50, 26, 50, 26, 50, 26, 50, 26,
   50, 70, 50, 26, 50, 26, 50, 26, 50, 26, 50, 26, 50, 26, 50, 26]


/-! ### The capture phase of `read`

The pin is modelled as the sequence of levels returned by successive
`gpio.read()` calls (`true` = `Level::High`); each loop iteration consumes
one sample. -/

/-- One busy-wait loop of `read`:
`while gpio.read() == lvl { count += 1; if count > MAX_COUNT { return Err(Timeout) } }`,
started with `count = 0`.  The body runs at most `MAX_COUNT + 1` times
before the `count > MAX_COUNT` check fires, so the call with
`fuel = MAX_COUNT + 1` models the loop exactly: `none` is the `Timeout`
return, reached precisely when the count would exceed `MAX_COUNT`. On
normal exit the loop returns the next unconsumed sample index together with
the final count. -/
def phaseLoop (pin : Nat → Bool) (lvl : Bool) :
    Nat → Nat → Nat → Option (Nat × Nat)
  | 0, _, _ => none
  | fuel + 1, t, count =>
    if pin t = lvl then phaseLoop pin lvl fuel (t + 1) (count + 1)
    else some (t + 1, count)

/-- The `for c in 0..DHT_PULSES` loop of `read`: for each pulse, count the
low phase (`while gpio.read() == Level::Low`) into `pulse_counts[2 * c]`
and then the high phase into `pulse_counts[2 * c + 1]`; a `Timeout` in any
phase aborts the whole capture at once. -/
def capturePulses (pin : Nat → Bool) : Nat → Nat → Option (List Nat)
  | 0, _ => some []
  | c + 1, t =>
    match phaseLoop pin false (MAX_COUNT + 1) t 0 with
    | none => none
    | some (t1, low) =>
      match phaseLoop pin true (MAX_COUNT + 1) t1 0 with
      | none => none
      | some (t2, high) =>
        match capturePulses pin c t2 with
        | none => none
        | some rest => some (low :: high :: rest)

/-- The capture phase of `read`: the initial
`while gpio.read() == Level::High` wait (whose count is discarded) followed
by the 41 pulse pairs. -/
def capture (pin : Nat → Bool) : Option (List Nat) :=
  match phaseLoop pin true (MAX_COUNT + 1) 0 0 with
  | none => none
  | some (t0, _) => capturePulses pin DHT_PULSES t0

/-- `pub fn read(pin: u8)` after the GPIO setup: capture the pulse train and
decode it; a timeout in any phase returns `Err(Timeout)`.  (GPIO
acquisition errors, which depend on the host hardware, are outside the
model.) -/
def dhtRead (pin : Nat → Bool) : Except ReadingError Reading :=
  match capture pin with
  | none => .error .Timeout
  | some arr => decode arr

/-! ### Spec-side definitions and helper lemmas for the decode claims -/

/-- Modelled from the words of the spec sentence behind claim C1: the
arithmetic mean, with integer division by 40, of the 40 high-phase durations
of the data bit-pairs, i.e. of the entries at odd indices `3, 5, ..., 81`. -/
def specHighMean (arr : List Nat) : Nat :=
  (((List.range 40).map fun k => 2 * k + 3).foldl
    (fun t i => t + arr.getD i 0) 0) / 40

/-- The amended description of the threshold: the arithmetic mean, with
integer division by 40, of the 40 low-phase durations of the data bit-pairs,
i.e. of the entries at even indices `2, 4, ..., 80`; the sync-phase entries
at indices 0 and 1 and all high-phase durations are excluded. -/
def specLowMean (arr : List Nat) : Nat :=
  (((List.range 40).map fun k => 2 * k + 2).foldl
    (fun t i => t + arr.getD i 0) 0) / 40

/-- The decoded value of data bit `m` (`m < 40`) relative to threshold `t`:
1 when the bit-pair's high-phase duration (the entry at odd index
`2 * m + 3`) is at least `t`, else 0. -/
def bitAt (arr : List Nat) (t m : Nat) : Nat :=
  if arr.getD (2 * m + 3) 0 ≥ t then 1 else 0

/-- The expected value of decoded byte `j` (`j < 5`): its 8 bits are data
bits `8 * j, ..., 8 * j + 7`, packed most-significant bit first. -/
def specByte (arr : List Nat) (t j : Nat) : Nat :=
  ∑ k ∈ Finset.range 8, 2 ^ (7 - k) * bitAt arr t (8 * j + k)

/-- The decoded value of data bit `m` at the threshold `decode` uses. -/
def specBit (arr : List Nat) (m : Nat) : Nat :=
  bitAt arr (threshold arr) m

end Dht22

namespace LightBridge

/-- One tick of the light bridge's inner loop
(`src/crates/light/src/main.rs`): the outcome of the probe `read(pin)`
(`none` models `Err(e)`, `some b` a successful reading of pin state `b`)
together with the outcome the broker would give to a publish attempted on
this tick (`true` = `Ok(())`, `false` = `Err(e)`). -/
structure Tick where
  probe : Option Bool
  pubOk : Bool
deriving DecidableEq, Repr

/-- The inner loop of `main` in `src/crates/light/src/main.rs`, run over a
finite trace of ticks.  The state `prev` is the `previous: Option<bool>`
variable.  Mirrors the source:
- `Err(e)` probe: log and continue ticking (the tick is consumed);
- `previous.is_some() && previous == Some(light)`: "No change detected",
  continue;
- otherwise `previous = Some(light)` *then* publish: on `Ok(())` continue,
  on `Err(e)` `break` out of the inner loop (ending the session).
Returns the final `previous`, the list of values whose publish was
attempted (in order), and the ticks left unconsumed when the loop broke
(empty if the trace ended first). -/
def innerLoop (prev : Option Bool) :
    List Tick → Option Bool × List Bool × List Tick
  | [] => (prev, [], [])
  | tick :: rest =>
    match tick.probe with
    | none => innerLoop prev rest
    | some light =>
      if prev.isSome && prev == some light then
        innerLoop prev rest
      else
        let prev' := some light
        if tick.pubOk then
          let r := innerLoop prev' rest
          (r.1, light :: r.2.1, r.2.2)
        else
          (prev', [light], rest)

/-- The outer (supervisor) loop of `main`, which reconnects and starts a
new session whenever the inner loop breaks.  `previous` is declared
*before* this loop in the source, so each new session starts from the
previous session's final memo, which `supervisorFuel` threads through.
`fuel` bounds the number of sessions; every broken session consumes at
least one tick, so any `fuel > ticks.length` gives the loop's true
behaviour.  The result is the concatenated list of attempted publishes. -/
def supervisorFuel : Nat → Option Bool → List Tick → List Bool
  | 0, _, _ => []
  | fuel + 1, prev, ticks =>
    let r := innerLoop prev ticks
    match r.2.2 with
    | [] => r.2.1
    | t :: rem => r.2.1 ++ supervisorFuel fuel r.1 (t :: rem)

/-- The supervisor loop started with memo `prev`, with enough fuel. -/
def supervisorFrom (prev : Option Bool) (ticks : List Tick) : List Bool :=
  supervisorFuel (ticks.length + 1) prev ticks

/-- The whole process: `let mut previous: Option<bool> = None;` before the
supervisor loop, so the memo is unknown exactly at process start. -/
def supervisor (ticks : List Tick) : List Bool :=
  supervisorFrom none ticks

end LightBridge

/-! ## Claim theorems and helper lemmas -/

namespace Dht22

lemma two_mul_lor_one (z : Nat) : 2 * z ||| 1 = 2 * z + 1 := by
  have h := Nat.lor_bit false z true 0
  simpa [Nat.bit_val] using h

lemma ifStep (c : Prop) [Decidable c] (b : Nat) :
    (if c then b * 2 % 256 ||| 1 else b * 2 % 256) =
      b * 2 % 256 + (if c then 1 else 0) := by
  have he : b * 2 % 256 = 2 * (b % 128) := by omega
  split <;> simp [he, two_mul_lor_one]

lemma foldl_dataStepA (f : Nat → Nat) (hf : ∀ i, f i ≤ 1) :
    dataIdx.foldl (dataStepA f) (List.replicate 5 0) =
      [∑ k ∈ Finset.range 8, 2 ^ (7 - k) * f (2 * (8 * 0 + k) + 3),
       ∑ k ∈ Finset.range 8, 2 ^ (7 - k) * f (2 * (8 * 1 + k) + 3),
       ∑ k ∈ Finset.range 8, 2 ^ (7 - k) * f (2 * (8 * 2 + k) + 3),
       ∑ k ∈ Finset.range 8, 2 ^ (7 - k) * f (2 * (8 * 3 + k) + 3),
       ∑ k ∈ Finset.range 8, 2 ^ (7 - k) * f (2 * (8 * 4 + k) + 3)] := by
  have hidx : dataIdx = [3, 5, 7, 9, 11, 13, 15, 17, 19, 21, 23, 25, 27, 29,
      31, 33, 35, 37, 39, 41, 43, 45, 47, 49, 51, 53, 55, 57, 59, 61, 63, 65,
      67, 69, 71, 73, 75, 77, 79, 81] := by decide
  rw [hidx]
  simp only [List.foldl_cons, List.foldl_nil, dataStepA, List.replicate,
    List.getD_cons_zero, List.getD_cons_succ, List.set,
    Finset.sum_range_succ, Finset.sum_range_zero]
  norm_num
  have h3 := hf 3; have h5 := hf 5; have h7 := hf 7; have h9 := hf 9
  have h11 := hf 11; have h13 := hf 13; have h15 := hf 15; have h17 := hf 17
  have h19 := hf 19; have h21 := hf 21; have h23 := hf 23; have h25 := hf 25
  have h27 := hf 27; have h29 := hf 29; have h31 := hf 31; have h33 := hf 33
  have h35 := hf 35; have h37 := hf 37; have h39 := hf 39; have h41 := hf 41
  have h43 := hf 43; have h45 := hf 45; have h47 := hf 47; have h49 := hf 49
  have h51 := hf 51; have h53 := hf 53; have h55 := hf 55; have h57 := hf 57
  have h59 := hf 59; have h61 := hf 61; have h63 := hf 63; have h65 := hf 65
  have h67 := hf 67; have h69 := hf 69; have h71 := hf 71; have h73 := hf 73
  have h75 := hf 75; have h77 := hf 77; have h79 := hf 79; have h81 := hf 81
  refine ⟨?_, ?_, ?_, ?_, ?_⟩ <;> omega

/-- The five bytes computed by the second loop of `decode` are exactly the
40 threshold-compared bits packed 8 per byte, most-significant bit first. -/
lemma dataBytes_eq (arr : List Nat) (t : Nat) :
    dataBytes arr t = [specByte arr t 0, specByte arr t 1, specByte arr t 2,
      specByte arr t 3, specByte arr t 4] := by
  have hstep : dataStep arr t =
      dataStepA (fun i => if arr.getD i 0 ≥ t then 1 else 0) := by
    funext data i
    simp only [dataStep, dataStepA, ifStep]
  unfold dataBytes
  rw [hstep, foldl_dataStepA]
  · rfl
  · intro i; dsimp only; split <;> simp

/-- C1: the claim states that the threshold used by `decode` is the mean
(integer division by 40) of the 40 high-phase durations at odd indices
`3, 5, ..., 81`.  Counterexample: on the `from_spec_positive_temp` train the
threshold computed by `decode` is 50 (the mean of the low-phase durations)
while the mean of the high-phase durations is 44. -/
theorem c1_threshold_counterexample :
    threshold specPositiveTemp = 50 ∧ specHighMean specPositiveTemp = 44 ∧
      threshold specPositiveTemp ≠ specHighMean specPositiveTemp := by decide

/-- C1 (amended): for every pulse train, the threshold used by `decode`
equals the arithmetic mean, with integer division by 40, of the 40
*low*-phase durations of the data bit-pairs (the entries at even indices
`2, 4, ..., 80`), excluding the two sync-phase entries at indices 0 and 1;
no high-phase duration contributes to the threshold. -/
theorem c1_threshold_is_low_phase_mean (arr : List Nat) :
    threshold arr = specLowMean arr := by
  have h : thresholdIdx = (List.range 40).map fun k => 2 * k + 2 := by decide
  simp only [threshold, specLowMean, DHT_PULSES, h]

/-- C4: for each of the 40 data bits, taken in order, the decoded bit is 1
iff the bit-pair's high-phase duration (entry at odd index `2 * m + 3`) is
at least the threshold — a duration exactly equal to the threshold yields
bit 1 — and the bits are packed 8 per byte, most-significant bit first, into
the five decoded bytes (the 5th byte, `j = 4`, being the sensor's checksum,
decoded the same way). -/
theorem c4_bits_msb_first (arr : List Nat) (j : Nat) (hj : j < 5) :
    (dataBytes arr (threshold arr)).getD j 0 =
      ∑ k ∈ Finset.range 8, 2 ^ (7 - k) * specBit arr (8 * j + k) ∧
    ∀ m : Nat,
      (specBit arr m = 1 ↔ arr.getD (2 * m + 3) 0 ≥ threshold arr) ∧
      (specBit arr m = 0 ↔ arr.getD (2 * m + 3) 0 < threshold arr) := by
  constructor
  · rw [dataBytes_eq]
    interval_cases j <;> rfl
  · intro m
    by_cases h : arr.getD (2 * m + 3) 0 ≥ threshold arr <;>
      simp [specBit, bitAt, h]

/-- Witness for C4 at the checksum byte (`j = 4`) of the `sample1` train. -/
theorem c4_bits_msb_first_witness :
    (4 < 5) ∧
    ((dataBytes sample1 (threshold sample1)).getD 4 0 =
      ∑ k ∈ Finset.range 8, 2 ^ (7 - k) * specBit sample1 (8 * 4 + k) ∧
    ∀ m : Nat,
      (specBit sample1 m = 1 ↔
        sample1.getD (2 * m + 3) 0 ≥ threshold sample1) ∧
      (specBit sample1 m = 0 ↔
        sample1.getD (2 * m + 3) 0 < threshold sample1)) :=
  ⟨by decide, c4_bits_msb_first sample1 4 (by decide)⟩

/-- C3: `decode` returns `ChecksumError` iff the 5th decoded byte differs
from the wrapping (mod-256) sum of the first four decoded bytes, and on a
checksum mismatch `decode` never returns a `Reading`. -/
theorem c3_checksum_error (arr : List Nat) :
    (decode arr = .error .Checksum ↔
      (dataBytes arr (threshold arr)).getD 4 0 ≠
        wrappingSum (dataBytes arr (threshold arr))) ∧
    ((dataBytes arr (threshold arr)).getD 4 0 ≠
        wrappingSum (dataBytes arr (threshold arr)) →
      ∀ r : Reading, decode arr ≠ .ok r) := by
  simp only [decode]
  split
  · rename_i h
    exact ⟨⟨fun _ => h, fun _ => rfl⟩, fun _ r hr => Except.noConfusion hr⟩
  · rename_i h
    exact ⟨⟨fun he => Except.noConfusion he, fun hne => absurd hne h⟩,
      fun hne => absurd hne h⟩

/-- Witness for C3 on the repository's `checksum` test train: its 5th byte
(115) differs from the wrapping sum of the first four, and `decode` returns
`ChecksumError` there. -/
theorem c3_checksum_error_witness :
    ((dataBytes checksumTrain (threshold checksumTrain)).getD 4 0 ≠
      wrappingSum (dataBytes checksumTrain (threshold checksumTrain))) ∧
    decode checksumTrain = .error .Checksum :=
  ⟨by decide, (c3_checksum_error checksumTrain).1.mpr (by decide)⟩

lemma foldlM_eq_foldl {α β : Type} (P : β → Prop) (f : β → α → β)
    (g : β → α → Option β) (l : List α)
    (hP : ∀ b a, P b → a ∈ l → P (f b a))
    (hfg : ∀ b a, P b → a ∈ l → g b a = some (f b a)) :
    ∀ b, P b → l.foldlM g b = some (l.foldl f b) ∧ P (l.foldl f b) := by
  induction l with
  | nil => exact fun b hb => ⟨rfl, hb⟩
  | cons x xs ih =>
    intro b hb
    have hx : x ∈ x :: xs := List.mem_cons_self x xs
    have hfb : P (f b x) := hP b x hb hx
    have step := ih
      (fun b a hb ha => hP b a hb (List.mem_cons_of_mem x ha))
      (fun b a hb ha => hfg b a hb (List.mem_cons_of_mem x ha))
      (f b x) hfb
    rw [List.foldlM_cons, hfg b x hb hx, List.foldl_cons]
    simpa using step

lemma temp_sign_abs (d2 d3 : ℕ) :
    ((if d2 &&& 0x80 ≠ 0 then -((((d2 &&& 0x7f) * 256 + d3 : ℕ) : ℚ) / 10)
      else (((d2 &&& 0x7f) * 256 + d3 : ℕ) : ℚ) / 10) < 0 ↔
      (d2 &&& 0x80 ≠ 0 ∧ (d2 &&& 0x7f) * 256 + d3 ≠ 0)) ∧
    |(if d2 &&& 0x80 ≠ 0 then -((((d2 &&& 0x7f) * 256 + d3 : ℕ) : ℚ) / 10)
      else (((d2 &&& 0x7f) * 256 + d3 : ℕ) : ℚ) / 10)| =
      (((d2 &&& 0x7f) * 256 + d3 : ℕ) : ℚ) / 10 := by
  have hn0 : (0 : ℚ) ≤ (((d2 &&& 0x7f) * 256 + d3 : ℕ) : ℚ) / 10 := by
    positivity
  constructor
  · by_cases hs : d2 &&& 0x80 ≠ 0
    · rw [if_pos hs, neg_lt_zero,
        lt_div_iff₀ (show (0 : ℚ) < 10 by norm_num), zero_mul]
      norm_cast
      constructor
      · intro h'
        exact ⟨hs, by omega⟩
      · rintro ⟨-, hn⟩
        omega
    · rw [if_neg hs]
      simp only [hs, false_and, iff_false, not_lt]
      exact hn0
  · by_cases hs : d2 &&& 0x80 ≠ 0
    · rw [if_pos hs, abs_neg, abs_of_nonneg hn0]
    · rw [if_neg hs, abs_of_nonneg hn0]

lemma decode_sample1_eq :
    decode sample1 = .ok { temperature := 124 / 10, humidity := 607 / 10 } := by
  have h : dataBytes sample1 (threshold sample1) = [2, 95, 0, 124, 221] := by
    decide
  simp only [decode, h]
  norm_num [wrappingSum, Reading.mk.injEq]

/-- C2: the claim states that every train with decoded data bytes
`[1, 148, 1, 95, 245]` decodes to humidity 65.2.  Counterexample: a train
with exactly those decoded bytes decodes to humidity 40.4
(`1 * 256 + 148 = 404`), not 65.2 (the temperature, 35.1, is as claimed). -/
theorem c2_counterexample :
    dataBytes bytes1_148Train (threshold bytes1_148Train) =
      [1, 148, 1, 95, 245] ∧
    decode bytes1_148Train =
      .ok { temperature := 351 / 10, humidity := 404 / 10 } ∧
    (404 : ℚ) / 10 ≠ 652 / 10 := by
  refine ⟨by decide, ?_, by norm_num⟩
  have h : dataBytes bytes1_148Train (threshold bytes1_148Train) =
      [1, 148, 1, 95, 245] := by decide
  simp only [decode, h]
  norm_num [wrappingSum, Reading.mk.injEq]

/-- C2 (amended): `decode` applied to the literal 82-entry fixture train
beginning `[458, 328, 320, 101, ...]` and ending `[..., 320, 425]` returns
`Ok` with humidity 60.7 and temperature 12.4; and every train whose decoded
data bytes are `[2, 140, 1, 95, 238]` (`hi = 2, lo = 140` → humidity 65.2;
`temp_hi = 1, temp_lo = 95` → 35.1; checksum `238 = 2 + 140 + 1 + 95`)
decodes to humidity 65.2 and temperature 35.1. -/
theorem c2_fixtures :
    decode sample1 = .ok { temperature := 124 / 10, humidity := 607 / 10 } ∧
    ∀ arr : List Nat,
      dataBytes arr (threshold arr) = [2, 140, 1, 95, 238] →
      decode arr = .ok { temperature := 351 / 10, humidity := 652 / 10 } := by
  refine ⟨decode_sample1_eq, fun arr h => ?_⟩
  simp only [decode, h]
  norm_num [wrappingSum, Reading.mk.injEq]

/-- Witness for C2's universally quantified part at the
`from_spec_positive_temp` train, whose decoded bytes are
`[2, 140, 1, 95, 238]`. -/
theorem c2_fixtures_witness :
    dataBytes specPositiveTemp (threshold specPositiveTemp) =
      [2, 140, 1, 95, 238] ∧
    decode specPositiveTemp =
      .ok { temperature := 351 / 10, humidity := 652 / 10 } :=
  ⟨by decide, c2_fixtures.2 specPositiveTemp (by decide)⟩

/-- C6: the claim states that the returned temperature is negative iff bit 7
of decoded byte 2 is set.  Counterexample: on a train with decoded bytes
`[0, 0, 128, 0, 128]` the sign bit is set but the masked raw temperature is
0, so `decode` returns temperature `-0 = 0`, which is not negative. -/
theorem c6_counterexample :
    ((dataBytes negZeroTrain (threshold negZeroTrain)).getD 2 0 &&& 0x80 ≠ 0) ∧
    decode negZeroTrain = .ok { temperature := 0, humidity := 0 } ∧
    ¬ (0 : ℚ) < 0 ∧ ¬ (0 : ℚ) > 0 := by
  have h : dataBytes negZeroTrain (threshold negZeroTrain) =
      [0, 0, 128, 0, 128] := by decide
  have ha : (128 : ℕ) &&& 0x7f = 0 := by decide
  have hb : (128 : ℕ) &&& 0x80 ≠ 0 := by decide
  refine ⟨by rw [h]; decide, ?_, by norm_num, by norm_num⟩
  simp only [decode, h]
  norm_num [wrappingSum, Reading.mk.injEq, ha, hb]

/-- C6 (amended): for every train that passes the checksum, the returned
temperature is negative iff bit 7 of decoded byte 2 (`temp_hi`) is set *and*
the masked raw value `(temp_hi & 0x7F) * 256 + temp_lo` is nonzero (when it
is zero the result is `-0 = 0`); the magnitude of the temperature equals
`((temp_hi & 0x7F) * 256 + temp_lo) / 10` regardless of the sign bit; and
the returned humidity equals `(byte0 * 256 + byte1) / 10` and is always
non-negative. -/
theorem c6_sign_magnitude (arr : List Nat) (r : Reading)
    (h : decode arr = .ok r) :
    (r.temperature < 0 ↔
      ((dataBytes arr (threshold arr)).getD 2 0 &&& 0x80 ≠ 0 ∧
        ((dataBytes arr (threshold arr)).getD 2 0 &&& 0x7f) * 256 +
          (dataBytes arr (threshold arr)).getD 3 0 ≠ 0)) ∧
    |r.temperature| =
      ((((dataBytes arr (threshold arr)).getD 2 0 &&& 0x7f) * 256 +
        (dataBytes arr (threshold arr)).getD 3 0 : ℕ) : ℚ) / 10 ∧
    r.humidity =
      (((dataBytes arr (threshold arr)).getD 0 0 * 256 +
        (dataBytes arr (threshold arr)).getD 1 0 : ℕ) : ℚ) / 10 ∧
    0 ≤ r.humidity := by
  obtain ⟨d0, d1, d2, d3, d4, hd⟩ : ∃ d0 d1 d2 d3 d4,
      dataBytes arr (threshold arr) = [d0, d1, d2, d3, d4] := by
    rw [dataBytes_eq]; exact ⟨_, _, _, _, _, rfl⟩
  rw [hd]
  simp only [decode, hd] at h
  simp only [List.getD_cons_zero, List.getD_cons_succ] at h ⊢
  split at h
  · exact absurd h (by simp)
  · rw [Except.ok.injEq] at h
    subst h
    have hh0 : (0 : ℚ) ≤ ((d0 * 256 + d1 : ℕ) : ℚ) / 10 := by positivity
    exact ⟨(temp_sign_abs d2 d3).1, (temp_sign_abs d2 d3).2, rfl, hh0⟩

/-- Witness for C6 at the `sample1` train (`decode` returns
temperature 12.4, humidity 60.7, decoded bytes `[2, 95, 0, 124, 221]`). -/
theorem c6_sign_magnitude_witness :
    decode sample1 = .ok { temperature := 124 / 10, humidity := 607 / 10 } ∧
    (((124 : ℚ) / 10 < 0 ↔
      ((dataBytes sample1 (threshold sample1)).getD 2 0 &&& 0x80 ≠ 0 ∧
        ((dataBytes sample1 (threshold sample1)).getD 2 0 &&& 0x7f) * 256 +
          (dataBytes sample1 (threshold sample1)).getD 3 0 ≠ 0)) ∧
    |(124 : ℚ) / 10| =
      ((((dataBytes sample1 (threshold sample1)).getD 2 0 &&& 0x7f) * 256 +
        (dataBytes sample1 (threshold sample1)).getD 3 0 : ℕ) : ℚ) / 10 ∧
    (607 : ℚ) / 10 =
      (((dataBytes sample1 (threshold sample1)).getD 0 0 * 256 +
        (dataBytes sample1 (threshold sample1)).getD 1 0 : ℕ) : ℚ) / 10 ∧
    (0 : ℚ) ≤ 607 / 10) :=
  ⟨decode_sample1_eq, c6_sign_magnitude sample1 _ decode_sample1_eq⟩

/-- C9: `decode` is total and panic-free on every 82-element pulse train:
with every array access checked (`decodeChecked`), no access is out of
bounds — in particular every byte index `(i - 3) / 16` stays below 5 — and
the result always exists and is either `Ok` with a `Reading` or
`Err(Checksum)`.  (The threshold divisor `DHT_PULSES - 1 = 40` is a nonzero
constant, so the `Nat` division here agrees with Rust's `usize` division.) -/
theorem c9_decode_total (arr : List Nat) (h : arr.length = DHT_PULSES * 2) :
    decodeChecked arr = some (decode arr) ∧
    ((∃ r : Reading, decode arr = .ok r) ∨ decode arr = .error .Checksum) := by
  constructor
  · have harr : ∀ i : Nat, i < DHT_PULSES * 2 →
        arr[i]? = some (arr.getD i 0) := by
      intro i hi
      have hi' : i < arr.length := by rw [h]; exact hi
      rw [List.getElem?_eq_getElem hi', List.getD_eq_getElem arr 0 hi']
    have hmem1 : ∀ i ∈ thresholdIdx, i < DHT_PULSES * 2 := by decide
    have hmem2 : ∀ i ∈ dataIdx, i < DHT_PULSES * 2 ∧ (i - 3) / 16 < 5 := by
      decide
    have hth := foldlM_eq_foldl (fun _ => True)
      (fun t i => t + arr.getD i 0)
      (fun t i => (arr[i]?).map fun a => t + a) thresholdIdx
      (fun _ _ _ _ => trivial)
      (fun t i _ hi => by dsimp only; rw [harr i (hmem1 i hi)]; rfl)
      0 trivial
    have hdata := foldlM_eq_foldl (fun data : List Nat => data.length = 5)
      (dataStep arr (threshold arr))
      (fun (data : List Nat) i =>
        match data[(i - 3) / 16]?, arr[i]? with
        | some b, some a =>
          let b := b * 2 % 256
          let b := if a ≥ threshold arr then b ||| 1 else b
          if (i - 3) / 16 < data.length then
            some (data.set ((i - 3) / 16) b)
          else none
        | _, _ => none) dataIdx
      (fun data i hdl _ => by simp [dataStep, hdl])
      (fun data i hdl hi => by
        have hidx : (i - 3) / 16 < data.length := by
          rw [hdl]; exact (hmem2 i hi).2
        dsimp only
        rw [List.getElem?_eq_getElem hidx, harr i (hmem2 i hi).1]
        dsimp only
        rw [if_pos hidx]
        simp only [dataStep, List.getD_eq_getElem data 0 hidx])
      (List.replicate 5 0) (by simp)
    have h5 : (dataBytes arr (threshold arr)).length = 5 := hdata.2
    have hget : ∀ k : Nat, k < 5 →
        (dataBytes arr (threshold arr))[k]? =
          some ((dataBytes arr (threshold arr)).getD k 0) := by
      intro k hk
      have hk' : k < (dataBytes arr (threshold arr)).length := by
        rw [h5]; exact hk
      rw [List.getElem?_eq_getElem hk', List.getD_eq_getElem _ 0 hk']
    have htt : (thresholdIdx.foldl (fun t i => t + arr.getD i 0) 0) /
        (DHT_PULSES - 1) = threshold arr := rfl
    have hdb : dataIdx.foldl (dataStep arr (threshold arr))
        (List.replicate 5 0) = dataBytes arr (threshold arr) := rfl
    simp only [decodeChecked, hth.1]
    simp only [htt]
    simp only [hdata.1, hdb]
    simp only [hget 0 (by omega), hget 1 (by omega), hget 2 (by omega),
      hget 3 (by omega), hget 4 (by omega)]
    simp only [decode, wrappingSum]
    split
    · rfl
    · rfl
  · simp only [decode]
    split
    · exact Or.inr rfl
    · exact Or.inl ⟨_, rfl⟩

/-- Witness for C9 at the `sample1` train (length 82). -/
theorem c9_decode_total_witness :
    sample1.length = DHT_PULSES * 2 ∧
    (decodeChecked sample1 = some (decode sample1) ∧
    ((∃ r : Reading, decode sample1 = .ok r) ∨
      decode sample1 = .error .Checksum)) :=
  ⟨by decide, c9_decode_total sample1 (by decide)⟩

lemma phaseLoop_some_bounds (pin : Nat → Bool) (lvl : Bool) :
    ∀ (fuel t count t' c' : Nat),
      phaseLoop pin lvl fuel t count = some (t', c') → c' < count + fuel := by
  intro fuel
  induction fuel with
  | zero => intro t count t' c' hc; exact Option.noConfusion hc
  | succ fuel ih =>
    intro t count t' c' hc
    rw [phaseLoop] at hc
    split at hc
    · have := ih (t + 1) (count + 1) t' c' hc
      omega
    · simp only [Option.some.injEq, Prod.mk.injEq] at hc
      omega

lemma phaseLoop_none_iff (pin : Nat → Bool) (lvl : Bool) :
    ∀ (fuel t count : Nat),
      phaseLoop pin lvl fuel t count = none ↔
        ∀ k, k < fuel → pin (t + k) = lvl := by
  intro fuel
  induction fuel with
  | zero => intro t count; simp [phaseLoop]
  | succ fuel ih =>
    intro t count
    rw [phaseLoop]
    split
    · rename_i hp
      rw [ih (t + 1) (count + 1)]
      constructor
      · intro hall k hk
        cases k with
        | zero => simpa using hp
        | succ k =>
          have := hall k (by omega)
          rw [show t + 1 + k = t + (k + 1) by omega] at this
          exact this
      · intro hall k hk
        have := hall (k + 1) (by omega)
        rw [show t + (k + 1) = t + 1 + k by omega] at this
        exact this
    · rename_i hp
      constructor
      · intro hc; exact Option.noConfusion hc
      · intro hall
        exact absurd (hall 0 (by omega)) (by simpa using hp)

lemma capturePulses_bounds (pin : Nat → Bool) :
    ∀ (c t : Nat) (arr : List Nat), capturePulses pin c t = some arr →
      arr.length = 2 * c ∧ ∀ x ∈ arr, x ≤ MAX_COUNT := by
  intro c
  induction c with
  | zero =>
    intro t arr h
    simp only [capturePulses, Option.some.injEq] at h
    subst h
    simp
  | succ c ih =>
    intro t arr h
    rw [capturePulses] at h
    split at h
    · exact Option.noConfusion h
    · rename_i t1 low hlow
      split at h
      · exact Option.noConfusion h
      · rename_i t2 high hhigh
        split at h
        · exact Option.noConfusion h
        · rename_i rest hrest
          simp only [Option.some.injEq] at h
          subst h
          have hl := phaseLoop_some_bounds pin false (MAX_COUNT + 1) t 0
            t1 low hlow
          have hh := phaseLoop_some_bounds pin true (MAX_COUNT + 1) t1 0
            t2 high hhigh
          have hr := ih t2 rest hrest
          refine ⟨by simp [hr.1]; omega, ?_⟩
          intro x hx
          simp only [List.mem_cons] at hx
          rcases hx with rfl | rfl | hx
          · omega
          · omega
          · exact hr.2 x hx

/-- C5: a busy-wait phase whose pin never changes within the first
`MAX_COUNT + 1` samples makes its loop return `Timeout` (`none`), i.e. the
count would exceed the ceiling `MAX_COUNT = 32000`; the `Timeout` of any
phase propagates so that no train is produced and `read` returns
`Err(Timeout)`; and consequently every entry of a captured train that
reaches `decode` is at most `MAX_COUNT`. -/
theorem c5_timeout_and_bounds (pin : Nat → Bool) (lvl : Bool) (t : Nat)
    (hstuck : ∀ k : Nat, k ≤ MAX_COUNT → pin (t + k) = lvl) :
    phaseLoop pin lvl (MAX_COUNT + 1) t 0 = none ∧
    (∀ arr : List Nat, capture pin = some arr →
      arr.length = DHT_PULSES * 2 ∧ ∀ x ∈ arr, x ≤ MAX_COUNT) ∧
    (capture pin = none → dhtRead pin = .error .Timeout) := by
  refine ⟨?_, ?_, ?_⟩
  · rw [phaseLoop_none_iff]
    intro k hk
    exact hstuck k (by omega)
  · intro arr harr
    unfold capture at harr
    split at harr
    · exact Option.noConfusion harr
    · have hb := capturePulses_bounds pin DHT_PULSES _ arr harr
      have h82 : arr.length = DHT_PULSES * 2 := by
        rw [hb.1]; rfl
      exact ⟨h82, hb.2⟩
  · intro hc
    unfold dhtRead
    rw [hc]

/-- Witness for C5 with the constantly-high pin: the initial high wait is
stuck, so the capture times out and `read` returns `Timeout`. -/
theorem c5_timeout_and_bounds_witness :
    (∀ k : Nat, k ≤ MAX_COUNT → (fun _ : Nat => true) (0 + k) = true) ∧
    (phaseLoop (fun _ : Nat => true) true (MAX_COUNT + 1) 0 0 = none ∧
    (∀ arr : List Nat, capture (fun _ : Nat => true) = some arr →
      arr.length = DHT_PULSES * 2 ∧ ∀ x ∈ arr, x ≤ MAX_COUNT) ∧
    (capture (fun _ : Nat => true) = none →
      dhtRead (fun _ : Nat => true) = .error .Timeout)) :=
  ⟨fun _ _ => rfl,
    c5_timeout_and_bounds (fun _ => true) true 0 (fun _ _ => rfl)⟩

end Dht22

namespace LightBridge

/-- The inner loop's behaviour on a successful probe: nothing happens when
the observed value equals the memo; otherwise the memo is set to the
observed value and a publish is attempted — recorded and continuing on
success, breaking with the remaining trace on failure. -/
lemma innerLoop_cons_some (prev : Option Bool) (v po : Bool)
    (rest : List Tick) :
    innerLoop prev ({ probe := some v, pubOk := po } :: rest) =
      if prev = some v then innerLoop prev rest
      else if po then
        ((innerLoop (some v) rest).1,
          v :: (innerLoop (some v) rest).2.1,
          (innerLoop (some v) rest).2.2)
      else (some v, [v], rest) := by
  rw [innerLoop]
  cases prev with
  | none => simp
  | some w =>
    by_cases hw : w = v
    · subst hw
      simp
    · simp [hw]

lemma innerLoop_cons_none (prev : Option Bool) (po : Bool)
    (rest : List Tick) :
    innerLoop prev ({ probe := none, pubOk := po } :: rest) =
      innerLoop prev rest := rfl

lemma innerLoop_rem_length : ∀ (ticks : List Tick) (prev : Option Bool),
    (innerLoop prev ticks).2.2 = [] ∨
      (innerLoop prev ticks).2.2.length < ticks.length := by
  intro ticks
  induction ticks with
  | nil => intro prev; exact Or.inl rfl
  | cons tick rest ih =>
    intro prev
    obtain ⟨pr, po⟩ := tick
    cases pr with
    | none =>
      rw [innerLoop_cons_none]
      rcases ih prev with h | h
      · exact Or.inl h
      · right
        simp only [List.length_cons]
        omega
    | some v =>
      rw [innerLoop_cons_some]
      by_cases hpv : prev = some v
      · rw [if_pos hpv]
        rcases ih prev with h | h
        · exact Or.inl h
        · right
          simp only [List.length_cons]
          omega
      · rw [if_neg hpv]
        cases po with
        | false =>
          right
          simp
        | true =>
          rcases ih (some v) with h | h
          · exact Or.inl (by simpa using h)
          · right
            simp only [List.length_cons, if_true]
            omega

lemma supervisorFuel_congr : ∀ (n fuel1 fuel2 : Nat) (prev : Option Bool)
    (ticks : List Tick), ticks.length ≤ n → ticks.length < fuel1 →
    ticks.length < fuel2 →
    supervisorFuel fuel1 prev ticks = supervisorFuel fuel2 prev ticks := by
  intro n
  induction n with
  | zero =>
    intro fuel1 fuel2 prev ticks hlen h1 h2
    have hnil : ticks = [] := List.eq_nil_of_length_eq_zero (by omega)
    subst hnil
    cases fuel1 with
    | zero => omega
    | succ f1 =>
      cases fuel2 with
      | zero => omega
      | succ f2 => rfl
  | succ n ih =>
    intro fuel1 fuel2 prev ticks hlen h1 h2
    cases fuel1 with
    | zero => omega
    | succ f1 =>
      cases fuel2 with
      | zero => omega
      | succ f2 =>
        rw [supervisorFuel, supervisorFuel]
        rcases hrem : (innerLoop prev ticks).2.2 with _ | ⟨t, rem⟩
        · rfl
        · dsimp only
          have hlt : (t :: rem).length < ticks.length := by
            rcases innerLoop_rem_length ticks prev with h | h
            · rw [hrem] at h
              exact absurd h (by simp)
            · rw [hrem] at h
              exact h
          rw [ih f1 f2 (innerLoop prev ticks).1 (t :: rem) (by omega)
            (by omega) (by omega)]

/-- When a session breaks with ticks remaining, the supervisor runs the next
session starting from the broken session's final memo. -/
lemma supervisorFrom_chain (prev p : Option Bool) (ticks rem : List Tick)
    (pubs : List Bool) (tick : Tick)
    (h : innerLoop prev ticks = (p, pubs, tick :: rem)) :
    supervisorFrom prev ticks = pubs ++ supervisorFrom p (tick :: rem) := by
  have hlt : (tick :: rem).length < ticks.length := by
    rcases innerLoop_rem_length ticks prev with h' | h'
    · rw [h] at h'
      exact absurd h' (by simp)
    · rw [h] at h'
      exact h'
  unfold supervisorFrom
  rw [supervisorFuel, h]
  dsimp only
  rw [supervisorFuel_congr (tick :: rem).length ticks.length
    ((tick :: rem).length + 1) p (tick :: rem) (by omega) (by omega)
    (by omega)]

/-- C8: in the light bridge inner loop, a publish is attempted after a
successful probe iff the memo is unknown (no successful probe yet, since
the memo is `None` exactly until the first success) or the observed value
differs from the previously observed one — captured by the step equations —
and a probe failure merely consumes the tick without ending the loop or
publishing.  For the observation trace
`[failure, true, true, false]` (all publishes succeeding), publishes happen
after readings 1 and 3 but not after reading 2. -/
theorem c8_publish_iff_changed (prev : Option Bool) (v po : Bool)
    (rest : List Tick) :
    innerLoop prev ({ probe := none, pubOk := po } :: rest) =
      innerLoop prev rest ∧
    innerLoop prev ({ probe := some v, pubOk := po } :: rest) =
      (if prev = some v then innerLoop prev rest
       else if po then
         ((innerLoop (some v) rest).1, v :: (innerLoop (some v) rest).2.1,
           (innerLoop (some v) rest).2.2)
       else (some v, [v], rest)) ∧
    innerLoop none [{ probe := none, pubOk := true },
      { probe := some true, pubOk := true },
      { probe := some true, pubOk := true },
      { probe := some false, pubOk := true }] =
      (some false, [true, false], []) :=
  ⟨innerLoop_cons_none prev po rest, innerLoop_cons_some prev v po rest, rfl⟩

/-- C7: the claim states the memo is not persisted across reconnects, so
that after a session break the first successful probe of the new session is
published even when it equals the last observed state.  Counterexample: on
the trace `[probe true / publish fails, probe true / publish would
succeed]`, session 1 breaks after attempting to publish `true`; session 2's
first successful probe is again `true` and is *not* published (the
process-wide memo survives the reconnect), so the whole run attempts
exactly one publish. -/
theorem c7_counterexample :
    supervisor [{ probe := some true, pubOk := false },
      { probe := some true, pubOk := true }] = [true] ∧
    innerLoop none [{ probe := some true, pubOk := false },
      { probe := some true, pubOk := true }] =
      (some true, [true], [{ probe := some true, pubOk := true }]) ∧
    (innerLoop (some true) [{ probe := some true, pubOk := true }]).2.1 =
      [] :=
  ⟨rfl, rfl, rfl⟩

/-- C7 (amended): the light bridge's previous-observed-state memo is
unknown at process start (the supervisor starts from `None`) but *is*
persisted across reconnects: `previous` is declared before the reconnect
loop, so after a session breaks the new session starts from the broken
session's final memo, and a first successful probe of the new session whose
value equals the last observed state is not published. -/
theorem c7_memo_persisted (prev p : Option Bool) (ticks rem : List Tick)
    (pubs : List Bool) (tick : Tick)
    (h : innerLoop prev ticks = (p, pubs, tick :: rem)) :
    supervisor ticks = supervisorFrom none ticks ∧
    supervisorFrom prev ticks = pubs ++ supervisorFrom p (tick :: rem) ∧
    ∀ (v po : Bool) (rest : List Tick),
      innerLoop (some v) ({ probe := some v, pubOk := po } :: rest) =
        innerLoop (some v) rest := by
  refine ⟨rfl, supervisorFrom_chain prev p ticks rem pubs tick h, ?_⟩
  intro v po rest
  rw [innerLoop_cons_some, if_pos rfl]

/-- Witness for C7 (amended): session 1 probes `true` and its publish
fails, breaking with memo `Some(true)`; the continuation runs with that
memo. -/
theorem c7_memo_persisted_witness :
    innerLoop none [{ probe := some true, pubOk := false },
        { probe := some false, pubOk := true }] =
      (some true, [true], [{ probe := some false, pubOk := true }]) ∧
    (supervisor [{ probe := some true, pubOk := false },
        { probe := some false, pubOk := true }] =
      supervisorFrom none [{ probe := some true, pubOk := false },
        { probe := some false, pubOk := true }] ∧
    supervisorFrom none [{ probe := some true, pubOk := false },
        { probe := some false, pubOk := true }] =
      [true] ++ supervisorFrom (some true)
        [{ probe := some false, pubOk := true }] ∧
    ∀ (v po : Bool) (rest : List Tick),
      innerLoop (some v) ({ probe := some v, pubOk := po } :: rest) =
        innerLoop (some v) rest) :=
  ⟨rfl, c7_memo_persisted none (some true)
    [{ probe := some true, pubOk := false },
      { probe := some false, pubOk := true }] []
    [true] { probe := some false, pubOk := true } rfl⟩

/-- C10: the memo is assigned the newly observed value before the publish
is attempted, so a failed publish (which breaks the inner loop, ending the
session with the rest of the trace unconsumed) still counts the reading as
observed, and after reconnecting a probe returning the same value is not
republished. -/
theorem c10_memo_set_before_publish (prev : Option Bool) (v : Bool)
    (rest : List Tick) (hne : prev ≠ some v) :
    innerLoop prev ({ probe := some v, pubOk := false } :: rest) =
      (some v, [v], rest) ∧
    ∀ (po : Bool) (rest2 : List Tick),
      innerLoop (some v) ({ probe := some v, pubOk := po } :: rest2) =
        innerLoop (some v) rest2 := by
  constructor
  · rw [innerLoop_cons_some, if_neg hne]
    simp
  · intro po rest2
    rw [innerLoop_cons_some, if_pos rfl]

/-- Witness for C10 with unknown memo and observed value `true`. -/
theorem c10_memo_set_before_publish_witness :
    (none ≠ some true) ∧
    (innerLoop none [{ probe := some true, pubOk := false }] =
      (some true, [true], []) ∧
    ∀ (po : Bool) (rest2 : List Tick),
      innerLoop (some true) ({ probe := some true, pubOk := po } :: rest2) =
        innerLoop (some true) rest2) :=
  ⟨by decide, c10_memo_set_before_publish none true [] (by decide)⟩

end LightBridge
